import Mathlib

/-!
Shallow embedding of the core retrieval routines of the `Text_to_image_search`
repository: the fallback metadata heuristic, the document builder, query
expansion, the fallback keyword scorer, and the retriever/endpoint
orchestration (from `src/image_process.py` and `src/main.py`).

Strings are modelled as Lean `String`s; Python `str.lower` is modelled with
`Char.toLower` (the repository only manipulates ASCII keywords), Python's
`sub in s` with a substring test, and Python's non-overlapping `str.count`
with a greedy left-to-right counter.
-/

/-- Python `str.lower`, character by character (ASCII-faithful). -/
def toLowerS (s : String) : String := ⟨s.data.map Char.toLower⟩

/-- Predicate `leadsList p l`: true when `p` is an initial segment of `l`. -/
def leadsList : List Char → List Char → Bool
  | [], _ => true
  | _ :: _, [] => false
  | a :: as, b :: bs => a == b && leadsList as bs

/-- Predicate `occursInL sub l`: `sub` occurs as a contiguous segment of `l`. -/
def occursInL (sub : List Char) : List Char → Bool
  | [] => sub.isEmpty
  | c :: rest => leadsList sub (c :: rest) || occursInL sub rest

/-- Python's `sub in s` substring test. -/
def substrOf (sub s : String) : Bool := occursInL sub.data s.data

/-- Greedy non-overlapping occurrence counter over character lists
(main loop of Python `str.count` for a non-empty pattern). The `skip`
argument is the number of characters of the last match still to pass
over before another match may start. -/
def countOccurAux (sub : List Char) : List Char → Nat → Nat
  | [], _ => 0
  | c :: rest, skip =>
    match skip with
    | Nat.succ k => countOccurAux sub rest k
    | 0 =>
      if leadsList sub (c :: rest) then 1 + countOccurAux sub rest (sub.length - 1)
      else countOccurAux sub rest 0

/-- Python `s.count(sub)`: non-overlapping occurrences, scanning left to
right; an empty pattern counts `len(s) + 1` as in Python. -/
def countOccurS (sub s : String) : Nat :=
  if sub.data.isEmpty then s.data.length + 1 else countOccurAux sub.data s.data 0

/-- Split a character list at every character satisfying `p`, keeping empty
pieces (the splitting core shared by `splitWs` and `basename`). -/
def splitList (p : Char → Bool) : List Char → List (List Char)
  | [] => [[]]
  | c :: rest =>
    let r := splitList p rest
    if p c then [] :: r
    else
      match r with
      | [] => [[c]]
      | g :: gs => (c :: g) :: gs

/-- Python `str.split()` with no argument: split on whitespace runs,
discarding empty pieces. -/
def splitWs (s : String) : List String :=
  ((splitList Char.isWhitespace s.data).map (fun l => (⟨l⟩ : String))).filter
    (fun t => !t.data.isEmpty)

/-- Python `os.path.basename` on POSIX paths: the part after the last `/`. -/
def basename (p : String) : String := ⟨(splitList (fun c => c == '/') p.data).getLastD []⟩

/-- The structured per-image metadata record (the dictionaries produced by
`ImageMetadataProcessor`, §3 of the spec: ImageRecord). -/
structure ImageRecord where
  sign_used : String
  number_of_people : Nat
  landscape_description : String
  weather : String
  mood : String
  image_name : String
  deriving DecidableEq, Repr

/-- The person-referring words of `create_fallback_metadata`. -/
def people_words : List String := ["person", "people", "man", "woman", "child", "boy", "girl"]

/-- The hand-sign keywords of `create_fallback_metadata`. -/
def sign_keywords : List String := ["v-sign", "peace", "thumbs up", "victory"]

/-- The weather keywords of `create_fallback_metadata`, in priority order. -/
def weather_words : List String := ["sunny", "cloudy", "rainy", "clear", "overcast", "bright"]

/-- Embedding of `ImageMetadataProcessor.create_fallback_metadata` (src/image_process.py
lines 155-186): derive a best-effort record from raw description text. -/
def create_fallback_metadata (description : String) (image_path : String) : ImageRecord :=
  let desc_lower := toLowerS description
  let people_count := people_words.foldl (fun acc w => acc + countOccurS w desc_lower) 0
  let sign_used :=
    if sign_keywords.any (fun sign => substrOf sign desc_lower) then "hand signs detected"
    else "none"
  let weather := ((weather_words.find? (fun w => substrOf w desc_lower)).getD "unknown")
  { sign_used := sign_used
    number_of_people := min people_count 10
    landscape_description :=
      if description.data.length > 100 then (⟨description.data.take 100⟩ : String) ++ "..."
      else description
    weather := weather
    mood := "neutral"
    image_name := basename image_path }

/-- A searchable document: the synthesized text body plus the record copied
into the document metadata (`langchain` `Document` as used by the code). -/
structure Document where
  page_content : String
  metadata : ImageRecord
  deriving DecidableEq, Repr

/-- A search-result dictionary of `simple_search` / `_enhanced_text_search`.
The fallback path fills `score`; the semantic path's dictionaries carry no
score key, modelled as `none`. -/
structure SearchResult where
  image_url : String
  metadata : ImageRecord
  content : String
  score : Option Nat
  deriving DecidableEq, Repr

/-- The five label:value lines of `create_vector_store` (lines 235-241). -/
def contentParts (entry : ImageRecord) : List String :=
  ["Setting: " ++ entry.landscape_description,
   "Mood: " ++ entry.mood,
   "Weather: " ++ entry.weather,
   "People count: " ++ toString entry.number_of_people,
   "Hand signs: " ++ entry.sign_used]

/-- People-related derived terms (lines 247-254). -/
def peopleTerms (entry : ImageRecord) : List String :=
  let people_count := entry.number_of_people
  if people_count == 0 then ["no people"]
  else if people_count == 1 then ["single person"]
  else if people_count > 1 then ["multiple people", "group"]
  else []

/-- Sign-related derived terms (lines 256-263). -/
def signTerms (entry : ImageRecord) : List String :=
  let sign_used := toLowerS entry.sign_used
  if substrOf "thumbs" sign_used then ["thumbs up", "positive gesture", "approval"]
  else if substrOf "peace" sign_used || substrOf "v-sign" sign_used then
    ["peace sign", "v sign", "victory"]
  else if sign_used != "none" && !sign_used.data.isEmpty then ["hand gesture"]
  else []

/-- Weather-related derived terms (lines 265-270). Note the source tests
`weather in ['sunny', 'clear', 'bright']`: equality with a list element,
not substring containment. -/
def weatherTerms (entry : ImageRecord) : List String :=
  let weather := toLowerS entry.weather
  if weather == "sunny" || weather == "clear" || weather == "bright" then
    ["sunny", "bright", "good weather", "clear sky"]
  else if weather == "cloudy" || weather == "overcast" then
    ["cloudy", "overcast", "gray sky"]
  else []

/-- Outdoor/indoor derived terms (lines 272-277). -/
def settingTerms (entry : ImageRecord) : List String :=
  let landscape := toLowerS entry.landscape_description
  if substrOf "outdoor" landscape || substrOf "outside" landscape then
    ["outdoor", "outside", "nature"]
  else if substrOf "indoor" landscape || substrOf "inside" landscape then
    ["indoor", "inside"]
  else []

/-- Beach/mountain/city derived terms (lines 279-284). -/
def placeTerms (entry : ImageRecord) : List String :=
  let landscape := toLowerS entry.landscape_description
  if substrOf "beach" landscape then ["beach", "sand", "ocean", "seaside"]
  else if substrOf "mountain" landscape then ["mountain", "hills", "elevation"]
  else if substrOf "city" landscape then ["city", "urban", "buildings"]
  else []

/-- All derived descriptive terms, in the order the source appends them. -/
def descriptiveTerms (entry : ImageRecord) : List String :=
  peopleTerms entry ++ signTerms entry ++ weatherTerms entry
    ++ settingTerms entry ++ placeTerms entry

/-- The `full_content` document body of `create_vector_store` (line 287). -/
def buildContent (entry : ImageRecord) : String :=
  String.intercalate " " (contentParts entry ++ descriptiveTerms entry)

/-- The document-building loop of `create_vector_store` (lines 232-300):
one document per record, body from `buildContent`, metadata a copy of the
record. -/
def createDocs (metadata_store : List ImageRecord) : List Document :=
  metadata_store.map (fun entry => { page_content := buildContent entry, metadata := entry })

/-- The fixed synonym table of `_expand_query_terms` (lines 403-412). -/
def synonyms : List (String × List String) :=
  [("thumbs", ["thumbs up", "thumb", "approval", "positive"]),
   ("peace", ["peace sign", "v sign", "victory", "v-sign"]),
   ("people", ["person", "individuals", "humans", "group"]),
   ("outdoor", ["outside", "nature", "exterior"]),
   ("indoor", ["inside", "interior"]),
   ("sunny", ["bright", "clear", "sunshine"]),
   ("happy", ["joyful", "cheerful", "positive"]),
   ("group", ["multiple", "several", "many"])]

/-- Add a string to a duplicate-free list if absent (Python `set` insert). -/
def insertNew (l : List String) (x : String) : List String :=
  if l.contains x then l else l ++ [x]

/-- One step of the synonym loop of `_expand_query_terms` (lines 414-416).
The Python function returns `list(set)`; the set is modelled as a
duplicate-free list (iteration order of a Python set is unspecified, and
downstream scoring only sums over the distinct elements, so order is
irrelevant). -/
def addSynonyms (acc : List String) (term : String) : List String :=
  match synonyms.lookup term with
  | some syns => syns.foldl insertNew acc
  | none => acc

/-- Body of `_expand_query_terms`: seed the set with the
whitespace-split terms, then add the synonyms of every term that is a key
of the table. -/
def expand_query_terms (query : String) : List String :=
  let terms := splitWs query
  terms.foldl addSynonyms (terms.foldl insertNew [])

/-- The per-document score of `_enhanced_text_search` (lines 354-378):
2 × occurrences of each expanded term present in the lowercased body, plus
the structured metadata bonuses. -/
def scoreDoc (query_lower : String) (expanded_terms : List String) (doc : Document) : Nat :=
  let content := toLowerS doc.page_content
  let metadata := doc.metadata
  let score := expanded_terms.foldl
    (fun s term => if substrOf term content then s + countOccurS term content * 2 else s) 0
  let score :=
    if substrOf "thumbs" query_lower && substrOf "thumbs" (toLowerS metadata.sign_used) then
      score + 10
    else score
  let score :=
    if substrOf "peace" query_lower && substrOf "peace" (toLowerS metadata.sign_used) then
      score + 10
    else score
  let score :=
    if substrOf "people" query_lower then
      if metadata.number_of_people > 0 then score + metadata.number_of_people * 3 else score
    else score
  let score :=
    if substrOf "outdoor" query_lower
        && substrOf "outdoor" (toLowerS metadata.landscape_description) then
      score + 5
    else score
  let score :=
    if substrOf "indoor" query_lower
        && substrOf "indoor" (toLowerS metadata.landscape_description) then
      score + 5
    else score
  let score :=
    if substrOf "sunny" query_lower && substrOf "sunny" (toLowerS metadata.weather) then
      score + 5
    else score
  score

/-- The `scored_docs` accumulation (lines 354-381): each document paired
with its score, keeping only positive scores, in original order. -/
def scoredDocs (docs : List Document) (query_lower : String)
    (expanded_terms : List String) : List (Document × Nat) :=
  docs.filterMap (fun doc =>
    let score := scoreDoc query_lower expanded_terms doc
    if score > 0 then some (doc, score) else none)

/-- The ordering used at line 384: descending by score. -/
def scoreGE (a b : Document × Nat) : Prop := b.2 ≤ a.2

instance : DecidableRel scoreGE := fun a b => Nat.decLe b.2 a.2

instance : IsTotal (Document × Nat) scoreGE := ⟨fun a b => Nat.le_total b.2 a.2⟩

instance : IsTrans (Document × Nat) scoreGE := ⟨fun _ _ _ h1 h2 => Nat.le_trans h2 h1⟩

/-- The sort `scored_docs.sort(key=..., reverse=True)`: Python `list.sort` is a
stable sort, and the stable descending sort by score is insertion sort
with `scoreGE` (a stable sort is uniquely determined by the key order). -/
def sortByScoreDesc (l : List (Document × Nat)) : List (Document × Nat) :=
  List.insertionSort scoreGE l

/-- Embedding of `ImageRetriever._enhanced_text_search` (lines 346-395). -/
def enhanced_text_search (docs : List Document) (query : String) (limit : Nat) :
    List SearchResult :=
  let query_lower := toLowerS query
  let expanded_terms := expand_query_terms query_lower
  let sorted := sortByScoreDesc (scoredDocs docs query_lower expanded_terms)
  (sorted.take limit).map (fun x =>
    { image_url := "/public/" ++ x.1.metadata.image_name
      metadata := x.1.metadata
      content := x.1.page_content
      score := some x.2 })

/-- The numeric score carried by a fallback search result (0 when the
result carries no score key). -/
def scoreVal (r : SearchResult) : Nat := r.score.getD 0

/-- The `ImageRetriever` state: the record store, the built documents
(empty until `create_vector_store` runs) and whether the semantic vector
store was successfully created. -/
structure Retriever where
  metadata_store : List ImageRecord
  docs : List Document
  vectorstore : Bool
  deriving DecidableEq, Repr

/-- Embedding of `ImageRetriever.create_vector_store` (lines 226-315) as a state
transition. It raises on an empty store, otherwise builds the documents;
the external embeddings attempt is abstracted by `embedOk` (its success
records a live vector store, its failure leaves `vectorstore = None`). -/
def create_vector_store (metadata_store : List ImageRecord) (embedOk : Bool) :
    Except String (List Document × Bool) :=
  if metadata_store.isEmpty then Except.error "No metadata available to create vector store"
  else Except.ok (createDocs metadata_store, embedOk)

/-- Embedding of `ImageRetriever.simple_search` (lines 317-344). The external semantic
similarity search is abstracted by `semantic`: `none` models a raised
exception, `some rs` the result dictionaries mapped from the documents it
returned. If the vector store is absent, the attempt raised, or the
results are empty, the call falls back to `enhanced_text_search`. -/
def simple_search (r : Retriever) (embedOk : Bool) (semantic : Option (List SearchResult))
    (query : String) (limit : Nat) : Except String (List SearchResult) :=
  match (if r.docs.isEmpty then create_vector_store r.metadata_store embedOk
         else Except.ok (r.docs, r.vectorstore)) with
  | Except.error e => Except.error e
  | Except.ok (docs, vs) =>
    let results : List SearchResult :=
      if vs then (match semantic with | some rs => rs | none => []) else []
    Except.ok (if results.isEmpty then enhanced_text_search docs query limit else results)

/-- The outcome of the `/query_images/` endpoint: a success body (echoed
query and result list) or an HTTP error status with detail. -/
inductive QueryOutcome where
  | ok : String → List SearchResult → QueryOutcome
  | error : Nat → String → QueryOutcome
  deriving DecidableEq, Repr

/-- Whether a `/query_images/` outcome is a success. -/
def isOk : QueryOutcome → Bool
  | QueryOutcome.ok _ _ => true
  | QueryOutcome.error _ _ => false

/-- Embedding of `query_images` in src/main.py (lines 76-94). With no retriever the
handler raises `HTTPException(400, "Process images first ...")`, which the
surrounding `except Exception` clause rewraps as a 500 error; either way
the outcome is an error, never a success. -/
def query_images (retriever : Option Retriever) (embedOk : Bool)
    (semantic : Option (List SearchResult)) (query : String) : QueryOutcome :=
  match retriever with
  | none =>
    QueryOutcome.error 500
      "Internal server error: Process images first using /process_images/ endpoint"
  | some r =>
    match simple_search r embedOk semantic query 5 with
    | Except.ok results => QueryOutcome.ok query results
    | Except.error e => QueryOutcome.error 500 ("Internal server error: " ++ e)

/-- The first record of the end-to-end scenario of the spec (§8). -/
def recA : ImageRecord :=
  { sign_used := "thumbs up", number_of_people := 2,
    landscape_description := "outdoor beach", weather := "sunny",
    mood := "happy", image_name := "a.jpg" }

/-- The second record of the end-to-end scenario of the spec (§8). -/
def recB : ImageRecord :=
  { sign_used := "none", number_of_people := 0,
    landscape_description := "indoor office", weather := "unknown",
    mood := "calm", image_name := "b.jpg" }

/-- Neutral metadata for handcrafted scorer-input documents. -/
def neutralRec (name : String) : ImageRecord :=
  { sign_used := "none", number_of_people := 0, landscape_description := "",
    weather := "", mood := "", image_name := name }

/-- A document whose body holds the term "cat" once. -/
def docOnce : Document := { page_content := "cat", metadata := neutralRec "t1.jpg" }

/-- A document whose body holds the term "cat" twice. -/
def docTwice : Document := { page_content := "cat cat", metadata := neutralRec "t2.jpg" }

/-- A document whose body holds no query term at all. -/
def docZero : Document := { page_content := "dog", metadata := neutralRec "t3.jpg" }

/-- The search result produced for `docOnce` by query "cat". -/
def resOnce : SearchResult :=
  { image_url := "/public/t1.jpg", metadata := neutralRec "t1.jpg",
    content := "cat", score := some 2 }

/-- A record whose weather value contains "sunny" without being equal to
it. -/
def recSunnyDay : ImageRecord :=
  { sign_used := "none", number_of_people := 1, landscape_description := "park",
    weather := "sunny day", mood := "calm", image_name := "c.jpg" }

/-- A record whose weather value is "Sunny" up to case. -/
def recSunnyCap : ImageRecord :=
  { sign_used := "none", number_of_people := 1, landscape_description := "park",
    weather := "Sunny", mood := "calm", image_name := "d.jpg" }

/-- A record whose weather value is "overcast". -/
def recOvercast : ImageRecord :=
  { sign_used := "none", number_of_people := 1, landscape_description := "park",
    weather := "overcast", mood := "calm", image_name := "e.jpg" }

/-- A description text holding exactly 15 occurrences of `"person"`. -/
def personText15 : String := String.intercalate " " (List.replicate 15 "person")

set_option maxRecDepth 1000000

/-- Accumulating a mapped value by `foldl` is adding the mapped sum. -/
theorem foldl_add_map_sum (f : α → Nat) (l : List α) (init : Nat) :
    l.foldl (fun acc x => acc + f x) init = init + (l.map f).sum := by
  induction l generalizing init with
  | nil => simp
  | cons x xs ih => simp [List.foldl_cons, ih, Nat.add_assoc]

/-- C5: the fallback people count is the sum of the (case-insensitive,
non-overlapping) substring occurrence counts of the seven person words,
capped at 10; and a text with 15 occurrences of "person" yields 10. -/
theorem fallback_people_count_capped :
    (∀ text path : String,
      (create_fallback_metadata text path).number_of_people
        = min ((people_words.map (fun w => countOccurS w (toLowerS text))).sum) 10)
    ∧ (create_fallback_metadata personText15 "img.jpg").number_of_people = 10 := by
  constructor
  · intro text path
    simp only [create_fallback_metadata]
    rw [foldl_add_map_sum]
    simp
  · decide

/-- C8: `create_fallback_metadata` is a pure deterministic function:
identical inputs yield identical records. -/
theorem fallback_metadata_deterministic (t₁ t₂ p₁ p₂ : String)
    (ht : t₁ = t₂) (hp : p₁ = p₂) :
    create_fallback_metadata t₁ p₁ = create_fallback_metadata t₂ p₂ := by
  subst ht; subst hp; rfl

/-- Witness for C8 at a concrete input. -/
theorem fallback_metadata_deterministic_witness :
    create_fallback_metadata "two people waving" "x.jpg"
      = create_fallback_metadata "two people waving" "x.jpg" :=
  fallback_metadata_deterministic "two people waving" "two people waving"
    "x.jpg" "x.jpg" rfl rfl

/-- C10: person-word detection counts embedded words: "woman" also counts
its embedded "man" (total 2), and "boy" inside "boycott" is counted. -/
theorem fallback_people_count_overlap :
    (create_fallback_metadata "a woman standing" "w.jpg").number_of_people = 2
    ∧ (create_fallback_metadata "the boycott" "b.jpg").number_of_people = 1 := by
  constructor <;> decide

/-- C1 counterexample: on the spec's two-record store with query
"people giving thumbs up" and limit 5, the fallback search does NOT return
a single result: b.jpg's document body contains "people" (in the line
"People count: 0" and the derived term "no people"), so b.jpg scores 4 and
is included as well. -/
theorem scenario_result_not_singleton :
    ¬((enhanced_text_search (createDocs [recA, recB]) "people giving thumbs up" 5).length
        = 1) := by
  decide

/-- C1 (amended): the scenario returns exactly two results, a.jpg first
with score 44 and b.jpg second with score 4; both scores are positive. -/
theorem scenario_result_pair :
    (enhanced_text_search (createDocs [recA, recB]) "people giving thumbs up" 5).map
        (fun r => (r.image_url, r.score))
      = [("/public/a.jpg", some 44), ("/public/b.jpg", some 4)] := by
  decide

/-- C2: with the documents built, a search falls back to (and returns
exactly) the keyword scorer's output whenever the vector store is
unavailable, and also whenever the semantic search raises or returns an
empty result. -/
theorem search_degrades_to_fallback (r : Retriever) (embedOk : Bool)
    (semantic : Option (List SearchResult)) (query : String) (limit : Nat)
    (hdocs : r.docs ≠ []) :
    (r.vectorstore = false →
      simple_search r embedOk semantic query limit
        = Except.ok (enhanced_text_search r.docs query limit))
    ∧ (semantic = none →
      simple_search r embedOk semantic query limit
        = Except.ok (enhanced_text_search r.docs query limit))
    ∧ (semantic = some [] →
      simple_search r embedOk semantic query limit
        = Except.ok (enhanced_text_search r.docs query limit)) := by
  have hne : r.docs.isEmpty = false := by
    cases h : r.docs with
    | nil => exact absurd h hdocs
    | cons a l => rfl
  refine ⟨?_, ?_, ?_⟩ <;> intro h <;>
    · simp only [simple_search, hne, Bool.false_eq_true, if_false, h]
      cases hv : r.vectorstore <;> simp

/-- Witness for C2 at a concrete degraded retriever. -/
theorem search_degrades_to_fallback_witness :
    simple_search ⟨[recB], createDocs [recB], false⟩ false none "thumbs" 3
      = Except.ok (enhanced_text_search (createDocs [recB]) "thumbs" 3) :=
  (search_degrades_to_fallback ⟨[recB], createDocs [recB], false⟩ false none "thumbs" 3
    (by decide)).1 rfl

/-- C9: querying with no retriever yet is always reported as an error
outcome, while a query against an indexed batch that matches nothing is a
normal success carrying an empty result list. -/
theorem query_before_index_errors :
    (∀ (query : String) (embedOk : Bool) (semantic : Option (List SearchResult)),
      isOk (query_images none embedOk semantic query) = false)
    ∧ query_images (some ⟨[recB], createDocs [recB], false⟩) false none "zzz"
        = QueryOutcome.ok "zzz" [] := by
  constructor
  · intro query embedOk semantic
    rfl
  · decide

/-- Inserting an element of score `s` in descending order lands in front of
the equal-score block: filtering by score `s` puts it first. -/
theorem filter_orderedInsert_of_eq (x : Document × Nat) (l : List (Document × Nat))
    (s : Nat) (hx : x.2 = s) :
    (List.orderedInsert scoreGE x l).filter (fun y => y.2 == s)
      = x :: l.filter (fun y => y.2 == s) := by
  induction l with
  | nil => simp [List.orderedInsert, List.filter_cons, hx]
  | cons y ys ih =>
    by_cases h : scoreGE x y
    · rw [List.orderedInsert_of_le scoreGE ys h]
      simp [List.filter_cons, hx]
    · have hy : (y.2 == s) = false := by
        subst hx
        simp only [scoreGE, not_le] at h
        simp only [beq_eq_false_iff_ne, ne_eq]
        omega
      simp only [List.orderedInsert, if_neg h, List.filter_cons, hy, Bool.false_eq_true,
        if_false, ih]

/-- Inserting an element whose score differs from `s` leaves the score-`s`
subsequence unchanged. -/
theorem filter_orderedInsert_of_ne (x : Document × Nat) (l : List (Document × Nat))
    (s : Nat) (hx : x.2 ≠ s) :
    (List.orderedInsert scoreGE x l).filter (fun y => y.2 == s)
      = l.filter (fun y => y.2 == s) := by
  have hxf : (x.2 == s) = false := by simpa using hx
  induction l with
  | nil => simp [List.orderedInsert, List.filter_cons, hxf]
  | cons y ys ih =>
    by_cases h : scoreGE x y
    · rw [List.orderedInsert_of_le scoreGE ys h]
      simp [List.filter_cons, hxf]
    · simp only [List.orderedInsert, if_neg h, List.filter_cons, ih]

/-- Stability of the descending sort: for every score `s`, the subsequence
of score-`s` elements of the sorted list is exactly the score-`s`
subsequence of the input, in input order. -/
theorem filter_sortByScoreDesc (l : List (Document × Nat)) (s : Nat) :
    (sortByScoreDesc l).filter (fun y => y.2 == s) = l.filter (fun y => y.2 == s) := by
  induction l with
  | nil => rfl
  | cons x xs ih =>
    show (List.orderedInsert scoreGE x (List.insertionSort scoreGE xs)).filter _ = _
    by_cases hx : x.2 = s
    · rw [filter_orderedInsert_of_eq x _ s hx]
      rw [show List.insertionSort scoreGE xs = sortByScoreDesc xs from rfl, ih]
      simp [List.filter_cons, hx]
    · rw [filter_orderedInsert_of_ne x _ s hx]
      rw [show List.insertionSort scoreGE xs = sortByScoreDesc xs from rfl, ih]
      have hxf : (x.2 == s) = false := by simpa using hx
      simp [List.filter_cons, hxf]

/-- C3: the fallback scorer returns at most `limit` results, ordered by
descending score; ties keep original insertion order (the sort is stable);
and concretely, of two documents holding a query term twice respectively
once, the double-occurrence one ranks first. -/
theorem fallback_scorer_ordering (docs : List Document) (query : String) (limit : Nat) :
    (enhanced_text_search docs query limit).length ≤ limit
    ∧ List.Sorted (fun a b : SearchResult => scoreVal b ≤ scoreVal a)
        (enhanced_text_search docs query limit)
    ∧ (∀ s : Nat,
        (sortByScoreDesc
            (scoredDocs docs (toLowerS query) (expand_query_terms (toLowerS query)))).filter
              (fun y => y.2 == s)
          = (scoredDocs docs (toLowerS query) (expand_query_terms (toLowerS query))).filter
              (fun y => y.2 == s))
    ∧ (enhanced_text_search [docOnce, docTwice] "cat" 2).map
        (fun r => (r.content, r.score)) = [("cat cat", some 4), ("cat", some 2)] := by
  refine ⟨?_, ?_, fun s => filter_sortByScoreDesc _ s, by decide⟩
  · simp only [enhanced_text_search, List.length_map, List.length_take]
    exact Nat.min_le_left _ _
  · have hs : List.Pairwise scoreGE
        (sortByScoreDesc
          (scoredDocs docs (toLowerS query) (expand_query_terms (toLowerS query)))) :=
      List.sorted_insertionSort scoreGE _
    have ht := List.Pairwise.sublist (List.take_sublist limit _) hs
    simp only [enhanced_text_search, List.Sorted, List.pairwise_map]
    exact ht.imp (fun h => h)

/-- C4: every fallback search result has a positive score, and a document
scoring 0 for the query never appears among the results, whatever the
limit. -/
theorem fallback_excludes_zero_scores (docs : List Document) (query : String) (limit : Nat)
    (d : Document) (r : SearchResult) (hd : d ∈ docs)
    (hzero : scoreDoc (toLowerS query) (expand_query_terms (toLowerS query)) d = 0)
    (hr : r ∈ enhanced_text_search docs query limit) :
    0 < scoreVal r ∧ ¬(r.content = d.page_content ∧ r.metadata = d.metadata) := by
  simp only [enhanced_text_search] at hr
  obtain ⟨x, hx, rfl⟩ := List.mem_map.mp hr
  have hx' : x ∈ sortByScoreDesc
      (scoredDocs docs (toLowerS query) (expand_query_terms (toLowerS query))) :=
    List.mem_of_mem_take hx
  have hx'' : x ∈ scoredDocs docs (toLowerS query) (expand_query_terms (toLowerS query)) :=
    (List.Perm.mem_iff (List.perm_insertionSort scoreGE _)).mp hx'
  simp only [scoredDocs, List.mem_filterMap] at hx''
  obtain ⟨doc, hdoc, hsome⟩ := hx''
  by_cases hpos : scoreDoc (toLowerS query) (expand_query_terms (toLowerS query)) doc > 0
  · rw [if_pos hpos] at hsome
    obtain rfl := (Option.some.injEq _ _).mp hsome
    refine ⟨hpos, ?_⟩
    rintro ⟨hc, hm⟩
    have hde : doc = d := by
      cases doc
      cases d
      simp only at hc hm
      simp [hc, hm]
    rw [hde] at hpos
    omega
  · rw [if_neg hpos] at hsome
    exact absurd hsome (by simp)

/-- Witness for C4 at a concrete document collection. -/
theorem fallback_excludes_zero_scores_witness :
    0 < scoreVal resOnce
    ∧ ¬(resOnce.content = docZero.page_content ∧ resOnce.metadata = docZero.metadata) :=
  fallback_excludes_zero_scores [docOnce, docZero] "cat" 5 docZero resOnce
    (by decide) (by decide) (by decide)

/-- Membership is preserved by a set insertion. -/
theorem mem_insertNew_of_mem (l : List String) (x y : String) (h : x ∈ l) :
    x ∈ insertNew l y := by
  unfold insertNew
  split
  · exact h
  · exact List.mem_append_left _ h

/-- An inserted element is a member afterwards. -/
theorem mem_insertNew_self (l : List String) (x : String) : x ∈ insertNew l x := by
  unfold insertNew
  split
  · next h => exact List.elem_iff.mp h
  · exact List.mem_append_right _ (List.mem_singleton.mpr rfl)

/-- Folding set insertions preserves membership in the accumulator. -/
theorem mem_foldl_insertNew_of_mem (ts : List String) (acc : List String) (x : String)
    (h : x ∈ acc) : x ∈ ts.foldl insertNew acc := by
  induction ts generalizing acc with
  | nil => simpa using h
  | cons t ts ih => exact ih _ (mem_insertNew_of_mem _ _ _ h)

/-- Every folded-in element is a member of the result. -/
theorem mem_foldl_insertNew_of_mem_arg (ts : List String) (acc : List String) (x : String)
    (h : x ∈ ts) : x ∈ ts.foldl insertNew acc := by
  induction ts generalizing acc with
  | nil => cases h
  | cons t ts ih =>
    rcases List.mem_cons.mp h with h' | h'
    · subst h'
      exact mem_foldl_insertNew_of_mem ts _ _ (mem_insertNew_self _ _)
    · exact ih _ h'

/-- The synonym step preserves membership in the accumulator. -/
theorem mem_addSynonyms_of_mem (acc : List String) (term x : String) (h : x ∈ acc) :
    x ∈ addSynonyms acc term := by
  unfold addSynonyms
  cases synonyms.lookup term with
  | none => exact h
  | some syns => exact mem_foldl_insertNew_of_mem _ _ _ h

/-- Folding synonym steps preserves membership in the accumulator. -/
theorem mem_foldl_addSynonyms_of_mem (ts : List String) (acc : List String) (x : String)
    (h : x ∈ acc) : x ∈ ts.foldl addSynonyms acc := by
  induction ts generalizing acc with
  | nil => simpa using h
  | cons t ts ih => exact ih _ (mem_addSynonyms_of_mem _ _ _ h)

/-- A synonym of any folded-in key term is a member of the result. -/
theorem mem_foldl_addSynonyms_syn (ts : List String) (acc : List String)
    (t : String) (syns : List String) (x : String) (ht : t ∈ ts)
    (hl : synonyms.lookup t = some syns) (hx : x ∈ syns) :
    x ∈ ts.foldl addSynonyms acc := by
  induction ts generalizing acc with
  | nil => cases ht
  | cons t' rest ih =>
    cases ht with
    | head =>
      have hstep : x ∈ addSynonyms acc t := by
        unfold addSynonyms
        rw [hl]
        exact mem_foldl_insertNew_of_mem_arg _ _ _ hx
      exact mem_foldl_addSynonyms_of_mem rest _ x hstep
    | tail _ h => exact ih _ h

/-- C6: query expansion keeps every whitespace-split term of the lowercased
query, adds all synonyms of every term that is an exact key of the table,
and concretely the expansion of "thumbs up group" contains the ten listed
terms. -/
theorem query_expansion_contains (query : String) :
    (∀ t ∈ splitWs (toLowerS query), t ∈ expand_query_terms (toLowerS query))
    ∧ (∀ t ∈ splitWs (toLowerS query), ∀ syns, synonyms.lookup t = some syns →
        ∀ s ∈ syns, s ∈ expand_query_terms (toLowerS query))
    ∧ (∀ t ∈ (["thumbs", "up", "group", "thumbs up", "thumb", "approval", "positive",
          "multiple", "several", "many"] : List String),
        t ∈ expand_query_terms (toLowerS "thumbs up group")) := by
  refine ⟨?_, ?_, by decide⟩
  · intro t ht
    exact mem_foldl_addSynonyms_of_mem _ _ _ (mem_foldl_insertNew_of_mem_arg _ _ _ ht)
  · intro t ht syns hl s hs
    exact mem_foldl_addSynonyms_syn _ _ t syns s ht hl hs

/-- Witness for C6: the synonym "thumb" of the key "thumbs" is in the
expansion of "thumbs up group". -/
theorem query_expansion_contains_witness :
    "thumb" ∈ expand_query_terms (toLowerS "thumbs up group") :=
  (query_expansion_contains "thumbs up group").2.1 "thumbs" (by decide)
    ["thumbs up", "thumb", "approval", "positive"] rfl "thumb" (by decide)

/-- C7 counterexample: the weather rule is not a containment check: the
weather value "sunny day" contains "sunny", yet the built document body
does not gain the term "good weather". -/
theorem weather_rule_not_containment :
    substrOf "sunny" (toLowerS recSunnyDay.weather) = true
    ∧ substrOf "good weather" (buildContent recSunnyDay) = false := by
  decide

/-- C7 (amended): the weather rule is a case-insensitive equality check:
when the lowercased weather value equals one of sunny/clear/bright the
document gains the four sunny terms, and when it equals cloudy/overcast it
gains the three cloudy terms. -/
theorem weather_rule_equality (entry : ImageRecord) :
    (toLowerS entry.weather ∈ (["sunny", "clear", "bright"] : List String) →
      weatherTerms entry = ["sunny", "bright", "good weather", "clear sky"]
      ∧ weatherTerms entry ⊆ descriptiveTerms entry)
    ∧ (toLowerS entry.weather ∈ (["cloudy", "overcast"] : List String) →
      weatherTerms entry = ["cloudy", "overcast", "gray sky"]
      ∧ weatherTerms entry ⊆ descriptiveTerms entry) := by
  have hsub : weatherTerms entry ⊆ descriptiveTerms entry := by
    intro x hx
    unfold descriptiveTerms
    simp only [List.mem_append]
    tauto
  constructor
  · intro h
    refine ⟨?_, hsub⟩
    simp only [List.mem_cons, List.not_mem_nil, or_false] at h
    unfold weatherTerms
    rcases h with h | h | h <;> rw [h] <;> rfl
  · intro h
    refine ⟨?_, hsub⟩
    simp only [List.mem_cons, List.not_mem_nil, or_false] at h
    unfold weatherTerms
    rcases h with h | h <;> rw [h] <;> rfl

/-- Witness for C7 at the concrete records with weather "Sunny" and
"overcast". -/
theorem weather_rule_equality_witness :
    (weatherTerms recSunnyCap = ["sunny", "bright", "good weather", "clear sky"]
      ∧ weatherTerms recSunnyCap ⊆ descriptiveTerms recSunnyCap)
    ∧ (weatherTerms recOvercast = ["cloudy", "overcast", "gray sky"]
      ∧ weatherTerms recOvercast ⊆ descriptiveTerms recOvercast) :=
  ⟨(weather_rule_equality recSunnyCap).1 (by decide),
   (weather_rule_equality recOvercast).2 (by decide)⟩
